import Mathlib

/-!
Verification development for the Millionth Dollar Homepage repository.

The definitions below are a shallow embedding of the in-memory grid store,
the ad-placement ledger and the agent's empty-space search:

* `paintPixel` embeds the `POST /pixel` handler (server, `app.post("/pixel")`),
* `placeAd` embeds the `POST /ad` handler (server, `app.post("/ad")`),
* `getPixelQuery` embeds `GET /pixel/:x/:y`,
* `getImage` embeds `GET /images/:id`,
* `findEmptySpace` embeds the agent tool of the same name.

JavaScript `Map` objects are embedded as association lists with
`Map.set` replace-or-append semantics.  JavaScript numbers occurring as
request fields are embedded as `Option Int` (`none` models a non-numeric
value, which is what the `typeof x !== "number"` guards reject); monetary
amounts are embedded as exact rationals with `unitPrice = 1/10000`
standing for the `$0.0001` per-pixel price.  The `timestamp` fields
(`Date.now()`) play no role in any property and are omitted.  Fresh ids
(`` `ad_${Date.now()}_...` ``) and the random candidates drawn by
`findEmptySpace` are nondeterministic inputs and are passed explicitly.
-/

abbrev Coord := Int × Int

/-- One cell of the canvas, as stored by `canvas.set` in the server:
`{ color, owner, adId?, url?, timestamp }` (timestamp omitted). -/
structure PixelData where
  color : String
  owner : String
  adId : Option String
  url : Option String
deriving Repr, DecidableEq

/-- The `canvas : Map<string, PixelData>` of the server, embedded as an
association list keyed by the coordinate pair. -/
abbrev Canvas := List (Coord × PixelData)

/-- `canvas.get(key)`. -/
def Canvas.get : Canvas → Coord → Option PixelData
  | [], _ => none
  | e :: es, k => if e.1 = k then some e.2 else Canvas.get es k

/-- `canvas.has(key)`. -/
def Canvas.hasKey (c : Canvas) (k : Coord) : Bool :=
  (Canvas.get c k).isSome

/-- `canvas.set(key, v)`: replace the entry if the key is present,
otherwise append it (JS `Map` insertion order). -/
def Canvas.set : Canvas → Coord → PixelData → Canvas
  | [], k, v => [(k, v)]
  | e :: es, k, v => if e.1 = k then (k, v) :: es else e :: Canvas.set es k v

/-- An entry of the `adPlacements` ledger.  `totalCost` is the numeric
value formatted into the `"$..."` string by the server. -/
structure AdPlacement where
  id : String
  owner : String
  x : Int
  y : Int
  width : Int
  height : Int
  pixels : Int
  totalCost : ℚ
  imageId : String
  linkUrl : String
  title : String
deriving Repr, DecidableEq

/-- The whole in-memory state of the server: `canvas`, `adPlacements`,
`generatedImages` (image id ↦ opaque binary data) and the two revenue
counters. -/
structure Store where
  canvas : Canvas
  adPlacements : List AdPlacement
  generatedImages : List (String × String)
  totalRevenue : ℚ
  totalPixelsSold : Nat
deriving Repr, DecidableEq

def Store.empty : Store :=
  { canvas := [], adPlacements := [], generatedImages := [],
    totalRevenue := 0, totalPixelsSold := 0 }

/-- `PIXEL_PRICE`, $0.0001 per pixel. -/
def unitPrice : ℚ := 1 / 10000

/-- Body of a `POST /pixel` request.  `none` in a numeric field models a
non-numeric JSON value. -/
structure PixelRequest where
  x : Option Int
  y : Option Int
  color : Option String
  owner : Option String
  url : Option String
deriving Repr, DecidableEq

/-- Body of a `POST /ad` request. -/
structure AdRequest where
  x : Option Int
  y : Option Int
  width : Option Int
  height : Option Int
  imageId : Option String
  linkUrl : Option String
  title : Option String
  owner : Option String
deriving Repr, DecidableEq

/-- The distinct `400` responses of `POST /pixel`. -/
inductive PixelError where
  | notNumbers
  | outOfBounds
  | invalidColor
deriving Repr, DecidableEq

/-- The distinct `400` responses of `POST /ad`, one per early `return` of
the handler, in source order. -/
inductive AdError where
  | invalidDims
  | tooSmall
  | misaligned
  | tooLarge
  | outOfBounds
  | missingImageId
  | unknownImage
  | missingLinkUrl
  | missingTitle
deriving Repr, DecidableEq

/-- The error taxonomy of the specification (section 7). -/
inductive ErrKind where
  | InvalidInput
  | TooSmall
  | TooLarge
  | Misaligned
  | OutOfBounds
  | UnknownImage
deriving Repr, DecidableEq

/-- Classification of each `POST /ad` failure under the specification's
taxonomy.  Both imageId checks are the "imageHandle must resolve to a
stored image" step of spec §4.2 (a missing handle does not resolve), so
both map to `UnknownImage`. -/
def AdError.kind : AdError → ErrKind
  | .invalidDims => .InvalidInput
  | .tooSmall => .TooSmall
  | .misaligned => .Misaligned
  | .tooLarge => .TooLarge
  | .outOfBounds => .OutOfBounds
  | .missingImageId => .UnknownImage
  | .unknownImage => .UnknownImage
  | .missingLinkUrl => .InvalidInput
  | .missingTitle => .InvalidInput

/-- `color.toUpperCase()`: JS uppercasing, character by character (the
colors involved are ASCII). -/
def strUpper (s : String) : String := ⟨s.data.map Char.toUpper⟩

/-- `owner || "anonymous"` (JS falsy: absent or empty string). -/
def ownerOrAnon : Option String → String
  | none => "anonymous"
  | some s => if s = "" then "anonymous" else s

/-- JS falsiness of an optional string field (`!field`). -/
def falsyStr : Option String → Bool
  | none => true
  | some s => s = ""

/-- One character of `[0-9A-Fa-f]`. -/
def isHexDigit (c : Char) : Bool :=
  (decide ('0' ≤ c) && decide (c ≤ '9')) ||
  (decide ('A' ≤ c) && decide (c ≤ 'F')) ||
  (decide ('a' ≤ c) && decide (c ≤ 'f'))

/-- The test `/^#[0-9A-Fa-f]{6}$/.test(color)`. -/
def isValidHexColor (s : String) : Bool :=
  match s.data with
  | '#' :: rest => rest.length == 6 && rest.all isHexDigit
  | _ => false

/-- `typeof color !== "string" || !/^#[0-9A-Fa-f]{6}$/.test(color)`,
negated: the color field is a string matching the pattern. -/
def colorOk : Option String → Bool
  | none => false
  | some s => isValidHexColor s

/-- The coordinate bounds check of `POST /pixel`:
`x < 0 || x >= CANVAS_WIDTH || y < 0 || y >= CANVAS_HEIGHT`. -/
def oobGuard (x y : Int) : Bool :=
  decide (x < 0) || decide (1000 ≤ x) || decide (y < 0) || decide (1000 ≤ y)

/-- State and response produced by the accepting branch of `POST /pixel`. -/
structure PixelResp where
  x : Int
  y : Int
  color : String
  owner : String
  url : Option String
  totalPixelsSold : Nat
deriving Repr, DecidableEq

/-- The mutation performed by `POST /pixel` once all checks pass:
`wasEmpty = !canvas.has(key)`, `canvas.set(...)`, and the two counters
bumped only when the cell was new. -/
def pixelOkResult (s : Store) (r : PixelRequest) (x y : Int) (c : String) :
    Store × PixelResp :=
  let k : Coord := (x, y)
  let wasEmpty := !(Canvas.hasKey s.canvas k)
  let pd : PixelData :=
    { color := strUpper c, owner := ownerOrAnon r.owner, adId := none, url := r.url }
  let sold := if wasEmpty then s.totalPixelsSold + 1 else s.totalPixelsSold
  let s' : Store :=
    { s with canvas := Canvas.set s.canvas k pd,
             totalPixelsSold := sold,
             totalRevenue :=
               if wasEmpty then s.totalRevenue + unitPrice else s.totalRevenue }
  (s', { x := x, y := y, color := strUpper c, owner := ownerOrAnon r.owner,
         url := r.url, totalPixelsSold := sold })

/-- The `POST /pixel` handler: numeric check, bounds check, color check,
then the mutation. -/
def paintPixel (s : Store) (r : PixelRequest) :
    Except PixelError (Store × PixelResp) :=
  match r.x, r.y with
  | some x, some y =>
    if oobGuard x y then .error .outOfBounds
    else
      match r.color with
      | some c =>
        if isValidHexColor c then .ok (pixelOkResult s r x y c)
        else .error .invalidColor
      | none => .error .invalidColor
  | _, _ => .error .notNumbers

/-- `width < 10 || height < 10`. -/
def dimsTooSmall (w h : Int) : Bool := decide (w < 10) || decide (h < 10)

/-- `width % 10 !== 0 || height % 10 !== 0`.  The handler only evaluates
this after ruling out `w < 10 ∨ h < 10`, where `Int.emod` agrees with the
JS remainder. -/
def dimsMisaligned (w h : Int) : Bool := decide (w % 10 ≠ 0) || decide (h % 10 ≠ 0)

/-- `width > 100 || height > 100`. -/
def dimsTooLarge (w h : Int) : Bool := decide (100 < w) || decide (100 < h)

/-- `x < 0 || y < 0 || x + width > CANVAS_WIDTH || y + height > CANVAS_HEIGHT`. -/
def rectOutOfBounds (x y w h : Int) : Bool :=
  decide (x < 0) || decide (y < 0) || decide (1000 < x + w) || decide (1000 < y + h)

/-- `generatedImages.has(id)`. -/
def imagesHas (imgs : List (String × String)) (id : String) : Bool :=
  (imgs.find? (fun e => decide (e.1 = id))).isSome

/-- `generatedImages.get(id)`, the lookup behind `GET /images/:id`. -/
def getImage (s : Store) (id : String) : Option String :=
  (s.generatedImages.find? (fun e => decide (e.1 = id))).map (·.2)

/-- `generatedImages.set(id, data)` (replace-or-append). -/
def imagesSet : List (String × String) → String → String → List (String × String)
  | [], id, data => [(id, data)]
  | e :: es, id, data =>
    if e.1 = id then (id, data) :: es else e :: imagesSet es id data

/-- The coordinates visited by the `POST /ad` double loop,
`px` outer from `x` to `x+width-1`, `py` inner. -/
def rectCoords (x y width height : Int) : List Coord :=
  ((List.range width.toNat).product (List.range height.toNat)).map
    (fun p => (x + p.1, y + p.2))

/-- The painting loop of `POST /ad`: paint every coordinate with the given
cell value, counting the coordinates that were previously unpainted. -/
def paintRect (pd : PixelData) : Canvas → List Coord → Canvas × Nat
  | c, [] => (c, 0)
  | c, k :: ks =>
    let wasEmpty := !(Canvas.hasKey c k)
    let rest := paintRect pd (Canvas.set c k pd) ks
    (rest.1, (if wasEmpty then 1 else 0) + rest.2)

/-- The cell value written under an ad: the `#AD0000` placeholder color
and the ad id as back-reference. -/
def adPaintData (adId : String) (owner : Option String) : PixelData :=
  { color := "#AD0000", owner := ownerOrAnon owner, adId := some adId, url := none }

/-- The accepting branch of `POST /ad`: paint the rectangle with the
placeholder color and the new ad id as back-reference, bump the counters
by the newly painted pixels and append the placement to the ledger. -/
def placeAdOk (adId : String) (s : Store) (x y width height : Int)
    (imageId linkUrl title : String) (owner : Option String) :
    Store × AdPlacement × Nat :=
  let res := paintRect (adPaintData adId owner) s.canvas (rectCoords x y width height)
  let pixelCount := width * height
  let placement : AdPlacement :=
    { id := adId, owner := ownerOrAnon owner, x := x, y := y,
      width := width, height := height, pixels := pixelCount,
      totalCost := (pixelCount : ℚ) * unitPrice,
      imageId := imageId, linkUrl := linkUrl, title := title }
  ({ s with canvas := res.1,
            adPlacements := s.adPlacements ++ [placement],
            totalPixelsSold := s.totalPixelsSold + res.2,
            totalRevenue := s.totalRevenue + (res.2 : ℚ) * unitPrice },
   placement, res.2)

/-- The `POST /ad` handler, with its checks in source order. -/
def placeAd (adId : String) (s : Store) (r : AdRequest) :
    Except AdError (Store × AdPlacement × Nat) :=
  match r.x, r.y, r.width, r.height with
  | some x, some y, some width, some height =>
    if dimsTooSmall width height then .error .tooSmall
    else if dimsMisaligned width height then .error .misaligned
    else if dimsTooLarge width height then .error .tooLarge
    else if rectOutOfBounds x y width height then .error .outOfBounds
    else if falsyStr r.imageId then .error .missingImageId
    else if !(imagesHas s.generatedImages (r.imageId.getD "")) then .error .unknownImage
    else if falsyStr r.linkUrl then .error .missingLinkUrl
    else if falsyStr r.title then .error .missingTitle
    else .ok (placeAdOk adId s x y width height
                (r.imageId.getD "") (r.linkUrl.getD "") (r.title.getD "") r.owner)
  | _, _, _, _ => .error .invalidDims

/-- The outcome of `GET /pixel/:x/:y`. -/
inductive QueryResult where
  | invalid
  | taken (pd : PixelData)
  | available
deriving Repr, DecidableEq

/-- The `GET /pixel/:x/:y` handler (`none` models a `NaN` path parameter). -/
def getPixelQuery (s : Store) (x y : Option Int) : QueryResult :=
  match x, y with
  | some x, some y =>
    if oobGuard x y then .invalid
    else
      match Canvas.get s.canvas (x, y) with
      | some pd => .taken pd
      | none => .available
  | _, _ => .invalid

/-- The mutating operations of the server, with the nondeterministic
fresh ids made explicit.  `genImage` is the storing step of
`POST /generate-image`. -/
inductive Op where
  | pixel (r : PixelRequest)
  | ad (adId : String) (r : AdRequest)
  | genImage (id data : String)
deriving Repr, DecidableEq

/-- One request against the server: rejected requests return before any
mutation, so they leave the store untouched. -/
def Store.apply (s : Store) : Op → Store
  | .pixel r =>
    match paintPixel s r with
    | .ok (s', _) => s'
    | .error _ => s
  | .ad adId r =>
    match placeAd adId s r with
    | .ok (s', _, _) => s'
    | .error _ => s
  | .genImage id data =>
    { s with generatedImages := imagesSet s.generatedImages id data }

/-- A whole sequence of requests. -/
def Store.run (s : Store) : List Op → Store
  | [] => s
  | o :: ops => Store.run (s.apply o) ops

/-- `Math.floor(n / 10) * 10`, the snap of `findEmptySpace`. -/
def snap10 (n : Int) : Int := n.fdiv 10 * 10

/-- Vacancy test of one candidate: the double loop checking
`occupied.has(px,py)` over the whole rectangle. -/
def rectVacant (occ : List Coord) (x y w h : Int) : Bool :=
  (rectCoords x y w h).all (fun k => !(occ.contains k))

/-- Acceptance test of one candidate in the search loop: the two
`continue` guards followed by the vacancy scan. -/
def candOk (occ : List Coord) (w h : Int) (c : Coord) : Bool :=
  !(decide (c.1 < 0) || decide (c.2 < 0)) &&
  !(decide (1000 < c.1 + w) || decide (1000 < c.2 + h)) &&
  rectVacant occ c.1 c.2 w h

/-- The agent's `findEmptySpace(width, height)`: the (already shuffled)
random candidates are snapped down to the 10-pixel grid and the first
acceptable one is returned. -/
def findEmptySpace (occ : List Coord) (w h : Int) (rawCands : List Coord) :
    Option Coord :=
  (rawCands.map (fun c => (snap10 c.1, snap10 c.2))).find? (candOk occ w h)

/-- The checks of `POST /ad` as an ordered table, in the order the
handler performs them (guards paired with the error each one raises). -/
def adChecks (s : Store) (r : AdRequest) : List (Bool × AdError) :=
  match r.x, r.y, r.width, r.height with
  | some x, some y, some width, some height =>
    [ (dimsTooSmall width height, .tooSmall),
      (dimsMisaligned width height, .misaligned),
      (dimsTooLarge width height, .tooLarge),
      (rectOutOfBounds x y width height, .outOfBounds),
      (falsyStr r.imageId, .missingImageId),
      (!(imagesHas s.generatedImages (r.imageId.getD "")), .unknownImage),
      (falsyStr r.linkUrl, .missingLinkUrl),
      (falsyStr r.title, .missingTitle) ]
  | _, _, _, _ => [(true, .invalidDims)]

/-- The first failing check of the table, if any. -/
def adFirstFailure (s : Store) (r : AdRequest) : Option AdError :=
  ((adChecks s r).find? (·.1)).map (·.2)

/-! ### Association-list lemmas for the canvas -/

theorem Canvas.get_set_self (c : Canvas) (k : Coord) (v : PixelData) :
    Canvas.get (Canvas.set c k v) k = some v := by
  induction c with
  | nil => simp [Canvas.set, Canvas.get]
  | cons e es ih =>
    by_cases h : e.1 = k
    · simp [Canvas.set, Canvas.get, h]
    · simp [Canvas.set, Canvas.get, h, ih]

theorem Canvas.get_set_ne (c : Canvas) {k k' : Coord} (v : PixelData)
    (h : k' ≠ k) : Canvas.get (Canvas.set c k v) k' = Canvas.get c k' := by
  induction c with
  | nil => simp [Canvas.set, Canvas.get, Ne.symm h]
  | cons e es ih =>
    by_cases he : e.1 = k
    · simp [Canvas.set, Canvas.get, he, Ne.symm h]
    · simp [Canvas.set, Canvas.get, he, ih]

theorem Canvas.hasKey_set_ne (c : Canvas) {k k' : Coord} (v : PixelData)
    (h : k' ≠ k) : Canvas.hasKey (Canvas.set c k v) k' = Canvas.hasKey c k' := by
  simp [Canvas.hasKey, Canvas.get_set_ne c v h]

theorem Canvas.length_set (c : Canvas) (k : Coord) (v : PixelData) :
    (Canvas.set c k v).length =
      if Canvas.hasKey c k then c.length else c.length + 1 := by
  induction c with
  | nil => simp [Canvas.set, Canvas.get, Canvas.hasKey]
  | cons e es ih =>
    by_cases he : e.1 = k
    · simp [Canvas.set, Canvas.get, Canvas.hasKey, he]
    · simp only [Canvas.set, Canvas.get, Canvas.hasKey, he, if_false,
        List.length_cons, ih]
      by_cases hk : (Canvas.get es k).isSome
      · simp [Canvas.hasKey, hk]
      · simp [Canvas.hasKey, hk]

/-! ### Lemmas about the rectangle-painting loop -/

theorem paintRect_fst_get_of_not_mem (pd : PixelData) :
    ∀ (ks : List Coord) (c : Canvas) {k : Coord}, k ∉ ks →
      Canvas.get (paintRect pd c ks).1 k = Canvas.get c k := by
  intro ks
  induction ks with
  | nil => intro c k _; rfl
  | cons a as ih =>
    intro c k hk
    have h1 : k ≠ a := fun h => hk (h ▸ List.mem_cons_self a as)
    have h2 : k ∉ as := fun h => hk (List.mem_cons_of_mem a h)
    simp only [paintRect]
    rw [ih _ h2, Canvas.get_set_ne _ _ h1]

theorem paintRect_fst_get_of_mem (pd : PixelData) :
    ∀ (ks : List Coord) (c : Canvas) {k : Coord}, k ∈ ks →
      Canvas.get (paintRect pd c ks).1 k = some pd := by
  intro ks
  induction ks with
  | nil => intro c k hk; cases hk
  | cons a as ih =>
    intro c k hk
    by_cases h : k ∈ as
    · exact ih _ h
    · have hka : k = a := by
        rcases List.mem_cons.mp hk with h' | h'
        · exact h'
        · exact absurd h' h
      subst hka
      simp only [paintRect]
      rw [paintRect_fst_get_of_not_mem pd as _ h, Canvas.get_set_self]

theorem paintRect_fst_length (pd : PixelData) :
    ∀ (ks : List Coord) (c : Canvas),
      (paintRect pd c ks).1.length = c.length + (paintRect pd c ks).2 := by
  intro ks
  induction ks with
  | nil => intro c; rfl
  | cons a as ih =>
    intro c
    simp only [paintRect]
    rw [ih (Canvas.set c a pd), Canvas.length_set]
    by_cases h : Canvas.hasKey c a
    · simp [h]
    · simp [h]; omega

theorem paintRect_snd_count (pd : PixelData) :
    ∀ (ks : List Coord) (c : Canvas), ks.Nodup →
      (paintRect pd c ks).2 = ks.countP (fun k => !(Canvas.hasKey c k)) := by
  intro ks
  induction ks with
  | nil => intro c _; rfl
  | cons a as ih =>
    intro c hnd
    have hna : a ∉ as := (List.nodup_cons.mp hnd).1
    have hnd' : as.Nodup := (List.nodup_cons.mp hnd).2
    simp only [paintRect]
    rw [ih (Canvas.set c a pd) hnd']
    have hcong : as.countP (fun k => !(Canvas.hasKey (Canvas.set c a pd) k)) =
        as.countP (fun k => !(Canvas.hasKey c k)) := by
      refine List.countP_congr (fun k hk => ?_)
      have : k ≠ a := fun h => hna (h ▸ hk)
      rw [Canvas.hasKey_set_ne c pd this]
    rw [hcong, List.countP_cons]
    by_cases h : Canvas.hasKey c a
    · simp [h]
    · simp [h]; omega

/-! ### The coordinates of a rectangle -/

theorem rectCoords_mem {x y w h px py : Int} (hw : 0 ≤ w) (hh : 0 ≤ h) :
    (px, py) ∈ rectCoords x y w h ↔
      (x ≤ px ∧ px < x + w ∧ y ≤ py ∧ py < y + h) := by
  simp only [rectCoords, List.mem_map, List.pair_mem_product, List.mem_range,
    Prod.mk.injEq, Prod.exists]
  constructor
  · rintro ⟨i, j, ⟨hi, hj⟩, h1, h2⟩
    omega
  · rintro ⟨h1, h2, h3, h4⟩
    exact ⟨(px - x).toNat, (py - y).toNat, ⟨by omega, by omega⟩, by omega, by omega⟩

theorem rectCoords_nodup (x y w h : Int) : (rectCoords x y w h).Nodup := by
  refine List.Nodup.map ?_
    (List.Nodup.product (List.nodup_range _) (List.nodup_range _))
  rintro ⟨a, b⟩ ⟨a', b'⟩ hab
  simp only [Prod.mk.injEq] at hab ⊢
  omega

/-! ### Inversion lemmas for the two paid handlers -/

theorem paintPixel_ok_inv {s : Store} {r : PixelRequest}
    {out : Store × PixelResp} (h : paintPixel s r = .ok out) :
    ∃ x y c, r.x = some x ∧ r.y = some y ∧ r.color = some c ∧
      oobGuard x y = false ∧ isValidHexColor c = true ∧
      out = pixelOkResult s r x y c := by
  rcases hx : r.x with _ | x
  · simp [paintPixel, hx] at h
  rcases hy : r.y with _ | y
  · simp [paintPixel, hx, hy] at h
  by_cases hg : oobGuard x y
  · simp [paintPixel, hx, hy, hg] at h
  rcases hc : r.color with _ | c
  · simp [paintPixel, hx, hy, hg, hc] at h
  by_cases hv : isValidHexColor c
  · refine ⟨x, y, c, rfl, rfl, rfl, by simpa using hg, hv, ?_⟩
    simp [paintPixel, hx, hy, hg, hc, hv] at h
    exact h.symm
  · simp [paintPixel, hx, hy, hg, hc, hv] at h

theorem paintPixel_error_cases (s : Store) (r : PixelRequest) {x y : Int}
    (hx : r.x = some x) (hy : r.y = some y) :
    (paintPixel s r = .error .outOfBounds ↔ oobGuard x y = true) ∧
    (paintPixel s r = .error .invalidColor ↔
      (oobGuard x y = false ∧ colorOk r.color = false)) := by
  by_cases hg : oobGuard x y
  · simp [paintPixel, hx, hy, hg]
  rcases hc : r.color with _ | c
  · simp [paintPixel, hx, hy, hg, hc, colorOk]
  by_cases hv : isValidHexColor c
  · simp [paintPixel, hx, hy, hg, hc, hv, colorOk]
  · simp [paintPixel, hx, hy, hg, hc, hv, colorOk]

theorem placeAd_ok_inv {adId : String} {s : Store} {r : AdRequest}
    {out : Store × AdPlacement × Nat} (h : placeAd adId s r = .ok out) :
    ∃ x y width height, r.x = some x ∧ r.y = some y ∧
      r.width = some width ∧ r.height = some height ∧
      dimsTooSmall width height = false ∧
      dimsMisaligned width height = false ∧
      dimsTooLarge width height = false ∧
      rectOutOfBounds x y width height = false ∧
      falsyStr r.imageId = false ∧
      imagesHas s.generatedImages (r.imageId.getD "") = true ∧
      falsyStr r.linkUrl = false ∧ falsyStr r.title = false ∧
      out = placeAdOk adId s x y width height
              (r.imageId.getD "") (r.linkUrl.getD "") (r.title.getD "") r.owner := by
  rcases hx : r.x with _ | x
  · simp [placeAd, hx] at h
  rcases hy : r.y with _ | y
  · simp [placeAd, hx, hy] at h
  rcases hw : r.width with _ | width
  · simp [placeAd, hx, hy, hw] at h
  rcases hh : r.height with _ | height
  · simp [placeAd, hx, hy, hw, hh] at h
  by_cases h1 : dimsTooSmall width height
  · simp [placeAd, hx, hy, hw, hh, h1] at h
  by_cases h2 : dimsMisaligned width height
  · simp [placeAd, hx, hy, hw, hh, h1, h2] at h
  by_cases h3 : dimsTooLarge width height
  · simp [placeAd, hx, hy, hw, hh, h1, h2, h3] at h
  by_cases h4 : rectOutOfBounds x y width height
  · simp [placeAd, hx, hy, hw, hh, h1, h2, h3, h4] at h
  by_cases h5 : falsyStr r.imageId
  · simp [placeAd, hx, hy, hw, hh, h1, h2, h3, h4, h5] at h
  by_cases h6 : imagesHas s.generatedImages (r.imageId.getD "")
  · by_cases h7 : falsyStr r.linkUrl
    · simp [placeAd, hx, hy, hw, hh, h1, h2, h3, h4, h5, h6, h7] at h
    by_cases h8 : falsyStr r.title
    · simp [placeAd, hx, hy, hw, hh, h1, h2, h3, h4, h5, h6, h7, h8] at h
    refine ⟨x, y, width, height, rfl, rfl, rfl, rfl,
      by simpa using h1, by simpa using h2, by simpa using h3, by simpa using h4,
      by simpa using h5, h6, by simpa using h7, by simpa using h8, ?_⟩
    simp [placeAd, hx, hy, hw, hh, h1, h2, h3, h4, h5, h6, h7, h8] at h
    exact h.symm
  · simp [placeAd, hx, hy, hw, hh, h1, h2, h3, h4, h5, h6] at h

theorem placeAd_error_iff (adId : String) (s : Store) (r : AdRequest)
    (e : AdError) :
    placeAd adId s r = .error e ↔ adFirstFailure s r = some e := by
  rcases hx : r.x with _ | x
  · simp [placeAd, adFirstFailure, adChecks, hx]
  rcases hy : r.y with _ | y
  · simp [placeAd, adFirstFailure, adChecks, hx, hy]
  rcases hw : r.width with _ | width
  · simp [placeAd, adFirstFailure, adChecks, hx, hy, hw]
  rcases hh : r.height with _ | height
  · simp [placeAd, adFirstFailure, adChecks, hx, hy, hw, hh]
  by_cases h1 : dimsTooSmall width height
  · simp [placeAd, adFirstFailure, adChecks, hx, hy, hw, hh, h1]
  by_cases h2 : dimsMisaligned width height
  · simp [placeAd, adFirstFailure, adChecks, hx, hy, hw, hh, h1, h2]
  by_cases h3 : dimsTooLarge width height
  · simp [placeAd, adFirstFailure, adChecks, hx, hy, hw, hh, h1, h2, h3]
  by_cases h4 : rectOutOfBounds x y width height
  · simp [placeAd, adFirstFailure, adChecks, hx, hy, hw, hh, h1, h2, h3, h4]
  by_cases h5 : falsyStr r.imageId
  · simp [placeAd, adFirstFailure, adChecks, hx, hy, hw, hh, h1, h2, h3, h4, h5]
  by_cases h6 : imagesHas s.generatedImages (r.imageId.getD "")
  · by_cases h7 : falsyStr r.linkUrl
    · simp [placeAd, adFirstFailure, adChecks, hx, hy, hw, hh,
        h1, h2, h3, h4, h5, h6, h7]
    by_cases h8 : falsyStr r.title
    · simp [placeAd, adFirstFailure, adChecks, hx, hy, hw, hh,
        h1, h2, h3, h4, h5, h6, h7, h8]
    · simp [placeAd, adFirstFailure, adChecks, hx, hy, hw, hh,
        h1, h2, h3, h4, h5, h6, h7, h8]
  · simp [placeAd, adFirstFailure, adChecks, hx, hy, hw, hh,
      h1, h2, h3, h4, h5, h6]

/-! ### The effect of one request on the store -/

theorem apply_pixel_ok {s : Store} {r : PixelRequest} {s' : Store}
    {resp : PixelResp} (h : paintPixel s r = .ok (s', resp)) :
    Store.apply s (.pixel r) = s' := by
  simp [Store.apply, h]

theorem apply_pixel_error {s : Store} {r : PixelRequest} {e : PixelError}
    (h : paintPixel s r = .error e) : Store.apply s (.pixel r) = s := by
  simp [Store.apply, h]

theorem apply_ad_ok {adId : String} {s : Store} {r : AdRequest} {s' : Store}
    {p : AdPlacement} {n : Nat} (h : placeAd adId s r = .ok (s', p, n)) :
    Store.apply s (.ad adId r) = s' := by
  simp [Store.apply, h]

theorem apply_ad_error {adId : String} {s : Store} {r : AdRequest}
    {e : AdError} (h : placeAd adId s r = .error e) :
    Store.apply s (.ad adId r) = s := by
  simp [Store.apply, h]

theorem apply_adPlacements_ext (s : Store) (o : Op) :
    ∃ d, (Store.apply s o).adPlacements = s.adPlacements ++ d := by
  cases o with
  | pixel r =>
    cases hres : paintPixel s r with
    | error e => exact ⟨[], by simp [apply_pixel_error hres]⟩
    | ok v =>
      obtain ⟨s', resp⟩ := v
      obtain ⟨x, y, c, -, -, -, -, -, hout⟩ := paintPixel_ok_inv hres
      refine ⟨[], ?_⟩
      rw [apply_pixel_ok hres]
      have : s' = (pixelOkResult s r x y c).1 := congrArg Prod.fst hout
      rw [this]
      simp [pixelOkResult]
  | ad adId r =>
    cases hres : placeAd adId s r with
    | error e => exact ⟨[], by simp [apply_ad_error hres]⟩
    | ok v =>
      obtain ⟨s', p, n⟩ := v
      obtain ⟨x, y, w, h, -, -, -, -, -, -, -, -, -, -, -, -, hout⟩ :=
        placeAd_ok_inv hres
      refine ⟨[(placeAdOk adId s x y w h (r.imageId.getD "") (r.linkUrl.getD "")
        (r.title.getD "") r.owner).2.1], ?_⟩
      rw [apply_ad_ok hres]
      have : s' = (placeAdOk adId s x y w h (r.imageId.getD "")
          (r.linkUrl.getD "") (r.title.getD "") r.owner).1 :=
        congrArg Prod.fst hout
      rw [this]
      simp [placeAdOk]
  | genImage id data => exact ⟨[], by simp [Store.apply]⟩

theorem run_adPlacements_ext :
    ∀ (ops : List Op) (s : Store),
      ∃ d, (Store.run s ops).adPlacements = s.adPlacements ++ d := by
  intro ops
  induction ops with
  | nil => exact fun s => ⟨[], by simp [Store.run]⟩
  | cons o ops ih =>
    intro s
    obtain ⟨d₁, hd₁⟩ := apply_adPlacements_ext s o
    obtain ⟨d₂, hd₂⟩ := ih (s.apply o)
    exact ⟨d₁ ++ d₂, by simp [Store.run, hd₂, hd₁]⟩

/-! ### Projections of the accepting branches -/

theorem placeAdOk_newPixels (adId : String) (s : Store) (x y w h : Int)
    (img link ttl : String) (ow : Option String) :
    (placeAdOk adId s x y w h img link ttl ow).2.2 =
      (paintRect (adPaintData adId ow) s.canvas (rectCoords x y w h)).2 := rfl

theorem placeAdOk_fst_canvas (adId : String) (s : Store) (x y w h : Int)
    (img link ttl : String) (ow : Option String) :
    (placeAdOk adId s x y w h img link ttl ow).1.canvas =
      (paintRect (adPaintData adId ow) s.canvas (rectCoords x y w h)).1 := rfl

theorem placeAdOk_fst_adPlacements (adId : String) (s : Store) (x y w h : Int)
    (img link ttl : String) (ow : Option String) :
    (placeAdOk adId s x y w h img link ttl ow).1.adPlacements =
      s.adPlacements ++ [(placeAdOk adId s x y w h img link ttl ow).2.1] := rfl

theorem placeAdOk_fst_generatedImages (adId : String) (s : Store)
    (x y w h : Int) (img link ttl : String) (ow : Option String) :
    (placeAdOk adId s x y w h img link ttl ow).1.generatedImages =
      s.generatedImages := rfl

theorem placeAdOk_fst_totalRevenue (adId : String) (s : Store) (x y w h : Int)
    (img link ttl : String) (ow : Option String) :
    (placeAdOk adId s x y w h img link ttl ow).1.totalRevenue =
      s.totalRevenue +
        ((placeAdOk adId s x y w h img link ttl ow).2.2 : ℚ) * unitPrice := rfl

theorem placeAdOk_fst_totalPixelsSold (adId : String) (s : Store)
    (x y w h : Int) (img link ttl : String) (ow : Option String) :
    (placeAdOk adId s x y w h img link ttl ow).1.totalPixelsSold =
      s.totalPixelsSold + (placeAdOk adId s x y w h img link ttl ow).2.2 := rfl

theorem placeAdOk_placement (adId : String) (s : Store) (x y w h : Int)
    (img link ttl : String) (ow : Option String) :
    (placeAdOk adId s x y w h img link ttl ow).2.1 =
      { id := adId, owner := ownerOrAnon ow, x := x, y := y,
        width := w, height := h, pixels := w * h,
        totalCost := ((w * h : Int) : ℚ) * unitPrice,
        imageId := img, linkUrl := link, title := ttl } := rfl

theorem pixelOkResult_fst_of_new {s : Store} (r : PixelRequest) {x y : Int}
    (c : String) (hk : Canvas.hasKey s.canvas (x, y) = false) :
    (pixelOkResult s r x y c).1 =
      { s with
          canvas := Canvas.set s.canvas (x, y)
            { color := strUpper c, owner := ownerOrAnon r.owner,
              adId := none, url := r.url },
          totalPixelsSold := s.totalPixelsSold + 1,
          totalRevenue := s.totalRevenue + unitPrice } := by
  simp [pixelOkResult, hk]

theorem pixelOkResult_fst_of_repaint {s : Store} (r : PixelRequest)
    {x y : Int} (c : String) (hk : Canvas.hasKey s.canvas (x, y) = true) :
    (pixelOkResult s r x y c).1 =
      { s with
          canvas := Canvas.set s.canvas (x, y)
            { color := strUpper c, owner := ownerOrAnon r.owner,
              adId := none, url := r.url } } := by
  simp [pixelOkResult, hk]

theorem pixelOkResult_fst_canvas (s : Store) (r : PixelRequest) (x y : Int)
    (c : String) :
    (pixelOkResult s r x y c).1.canvas =
      Canvas.set s.canvas (x, y)
        { color := strUpper c, owner := ownerOrAnon r.owner,
          adId := none, url := r.url } := rfl

theorem pixelOkResult_fst_adPlacements (s : Store) (r : PixelRequest)
    (x y : Int) (c : String) :
    (pixelOkResult s r x y c).1.adPlacements = s.adPlacements := rfl

theorem pixelOkResult_snd (s : Store) (r : PixelRequest) (x y : Int)
    (c : String) :
    (pixelOkResult s r x y c).2 =
      { x := x, y := y, color := strUpper c, owner := ownerOrAnon r.owner,
        url := r.url,
        totalPixelsSold := (pixelOkResult s r x y c).1.totalPixelsSold } := rfl

/-! ### Counter monotonicity -/

theorem unitPrice_nonneg : (0 : ℚ) ≤ unitPrice := by norm_num [unitPrice]

theorem apply_counters_le (s : Store) (o : Op) :
    s.totalRevenue ≤ (Store.apply s o).totalRevenue ∧
    s.totalPixelsSold ≤ (Store.apply s o).totalPixelsSold := by
  cases o with
  | pixel r =>
    cases hres : paintPixel s r with
    | error e => rw [apply_pixel_error hres]; exact ⟨le_refl _, le_refl _⟩
    | ok v =>
      obtain ⟨s', resp⟩ := v
      obtain ⟨x, y, c, -, -, -, -, -, hout⟩ := paintPixel_ok_inv hres
      rw [apply_pixel_ok hres,
        show s' = (pixelOkResult s r x y c).1 from congrArg Prod.fst hout]
      by_cases hk : Canvas.hasKey s.canvas (x, y)
      · rw [pixelOkResult_fst_of_repaint r c hk]
        exact ⟨le_refl _, le_refl _⟩
      · rw [pixelOkResult_fst_of_new r c (by simpa using hk)]
        refine ⟨?_, Nat.le_succ _⟩
        have := unitPrice_nonneg
        simp only []
        linarith
  | ad adId r =>
    cases hres : placeAd adId s r with
    | error e => rw [apply_ad_error hres]; exact ⟨le_refl _, le_refl _⟩
    | ok v =>
      obtain ⟨s', p, n⟩ := v
      obtain ⟨x, y, w, h, -, -, -, -, -, -, -, -, -, -, -, -, hout⟩ :=
        placeAd_ok_inv hres
      rw [apply_ad_ok hres,
        show s' = (placeAdOk adId s x y w h (r.imageId.getD "")
          (r.linkUrl.getD "") (r.title.getD "") r.owner).1 from
          congrArg Prod.fst hout]
      rw [placeAdOk_fst_totalRevenue, placeAdOk_fst_totalPixelsSold]
      constructor
      · have h0 : (0 : ℚ) ≤ ((placeAdOk adId s x y w h (r.imageId.getD "")
            (r.linkUrl.getD "") (r.title.getD "") r.owner).2.2 : ℚ) * unitPrice := by
          have := unitPrice_nonneg
          positivity
        linarith
      · exact Nat.le_add_right _ _
  | genImage id data => exact ⟨le_refl _, le_refl _⟩

theorem run_counters_le (s : Store) (ops : List Op) :
    s.totalRevenue ≤ (Store.run s ops).totalRevenue ∧
    s.totalPixelsSold ≤ (Store.run s ops).totalPixelsSold := by
  induction ops generalizing s with
  | nil => exact ⟨le_refl _, le_refl _⟩
  | cons o ops ih =>
    have h1 := apply_counters_le s o
    have h2 := ih (s.apply o)
    exact ⟨le_trans h1.1 h2.1, le_trans h1.2 h2.2⟩

/-! ### The revenue / pixels-sold invariant -/

/-- The bookkeeping invariant of the store: the pixels-sold counter is the
number of painted cells, and revenue is that counter times the unit price. -/
def StoreInv (s : Store) : Prop :=
  s.totalPixelsSold = s.canvas.length ∧
  s.totalRevenue = (s.totalPixelsSold : ℚ) * unitPrice

theorem storeInv_empty : StoreInv Store.empty := by
  constructor <;> simp [Store.empty]

theorem storeInv_apply {s : Store} (hs : StoreInv s) (o : Op) :
    StoreInv (Store.apply s o) := by
  obtain ⟨hlen, hrev⟩ := hs
  cases o with
  | pixel r =>
    cases hres : paintPixel s r with
    | error e => rw [apply_pixel_error hres]; exact ⟨hlen, hrev⟩
    | ok v =>
      obtain ⟨s', resp⟩ := v
      obtain ⟨x, y, c, -, -, -, -, -, hout⟩ := paintPixel_ok_inv hres
      rw [apply_pixel_ok hres,
        show s' = (pixelOkResult s r x y c).1 from congrArg Prod.fst hout]
      by_cases hk : Canvas.hasKey s.canvas (x, y)
      · rw [pixelOkResult_fst_of_repaint r c hk]
        refine ⟨?_, hrev⟩
        dsimp only
        rw [Canvas.length_set, if_pos hk]
        exact hlen
      · rw [pixelOkResult_fst_of_new r c (by simpa using hk)]
        refine ⟨?_, ?_⟩
        · dsimp only
          rw [Canvas.length_set, if_neg (by simpa using hk)]
          omega
        · dsimp only
          rw [hrev]
          push_cast
          ring
  | ad adId r =>
    cases hres : placeAd adId s r with
    | error e => rw [apply_ad_error hres]; exact ⟨hlen, hrev⟩
    | ok v =>
      obtain ⟨s', p, n⟩ := v
      obtain ⟨x, y, w, h, -, -, -, -, -, -, -, -, -, -, -, -, hout⟩ :=
        placeAd_ok_inv hres
      rw [apply_ad_ok hres,
        show s' = (placeAdOk adId s x y w h (r.imageId.getD "")
          (r.linkUrl.getD "") (r.title.getD "") r.owner).1 from
          congrArg Prod.fst hout]
      constructor
      · rw [placeAdOk_fst_totalPixelsSold, placeAdOk_fst_canvas,
          paintRect_fst_length, placeAdOk_newPixels]
        omega
      · rw [placeAdOk_fst_totalRevenue, placeAdOk_fst_totalPixelsSold, hrev]
        push_cast
        ring
  | genImage id data =>
    exact ⟨hlen, hrev⟩

theorem storeInv_run {s : Store} (hs : StoreInv s) (ops : List Op) :
    StoreInv (Store.run s ops) := by
  induction ops generalizing s with
  | nil => exact hs
  | cons o ops ih => exact ih (storeInv_apply hs o)

/-! ### Helper lemmas for the remaining claims -/

theorem snap10_eq_ediv (n : Int) : snap10 n = n / 10 * 10 := by
  unfold snap10
  rw [Int.fdiv_eq_ediv _ (by norm_num)]

theorem rectVacant_nil (x y w h : Int) : rectVacant [] x y w h = true := by
  simp [rectVacant]

theorem getImage_isSome_of_has {s : Store} {id : String}
    (h : imagesHas s.generatedImages id = true) :
    (getImage s id).isSome = true := by
  simp only [imagesHas] at h
  simp [getImage, h]

theorem getImage_congr {s s' : Store} (id : String)
    (h : s'.generatedImages = s.generatedImages) :
    getImage s' id = getImage s id := by
  simp [getImage, h]

theorem paintPixel_counters {s : Store} {r : PixelRequest} {x y : Int}
    {s' : Store} {resp : PixelResp} (hx : r.x = some x) (hy : r.y = some y)
    (h : paintPixel s r = .ok (s', resp)) :
    s'.totalRevenue = s.totalRevenue +
      (if Canvas.hasKey s.canvas (x, y) then 0 else unitPrice) ∧
    s'.totalPixelsSold = s.totalPixelsSold +
      (if Canvas.hasKey s.canvas (x, y) then 0 else 1) := by
  obtain ⟨x', y', c, hx', hy', -, -, -, hout⟩ := paintPixel_ok_inv h
  rw [hx] at hx'
  rw [hy] at hy'
  obtain rfl : x = x' := by injection hx'
  obtain rfl : y = y' := by injection hy'
  have hs' : s' = (pixelOkResult s r x y c).1 := congrArg Prod.fst hout
  by_cases hk : Canvas.hasKey s.canvas (x, y)
  · rw [hs', pixelOkResult_fst_of_repaint r c hk, if_pos hk, if_pos hk]
    exact ⟨by simp, by simp⟩
  · rw [hs', pixelOkResult_fst_of_new r c (by simpa using hk),
      if_neg hk, if_neg hk]
    exact ⟨rfl, rfl⟩

theorem placeAd_counters {adId : String} {s : Store} {r : AdRequest}
    {s' : Store} {p : AdPlacement} {n : Nat}
    (h : placeAd adId s r = .ok (s', p, n)) :
    s'.totalRevenue = s.totalRevenue + (n : ℚ) * unitPrice ∧
    s'.totalPixelsSold = s.totalPixelsSold + n ∧
    n = (rectCoords p.x p.y p.width p.height).countP
          (fun k => !(Canvas.hasKey s.canvas k)) := by
  obtain ⟨x, y, w, hgt, hx, hy, hw, hh, h1, h2, h3, h4, h5, h6, h7, h8, hout⟩ :=
    placeAd_ok_inv h
  have hs' : s' = (placeAdOk adId s x y w hgt (r.imageId.getD "")
      (r.linkUrl.getD "") (r.title.getD "") r.owner).1 := congrArg Prod.fst hout
  have hp : p = (placeAdOk adId s x y w hgt (r.imageId.getD "")
      (r.linkUrl.getD "") (r.title.getD "") r.owner).2.1 :=
    congrArg (fun z : Store × AdPlacement × Nat => z.2.1) hout
  have hn : n = (placeAdOk adId s x y w hgt (r.imageId.getD "")
      (r.linkUrl.getD "") (r.title.getD "") r.owner).2.2 :=
    congrArg (fun z : Store × AdPlacement × Nat => z.2.2) hout
  refine ⟨?_, ?_, ?_⟩
  · rw [hs', placeAdOk_fst_totalRevenue, ← hn]
  · rw [hs', placeAdOk_fst_totalPixelsSold, ← hn]
  · rw [hn, placeAdOk_newPixels,
      paintRect_snd_count _ _ _ (rectCoords_nodup x y w hgt), hp,
      placeAdOk_placement]

/-! ### Concrete fixtures -/

/-- A `POST /pixel` body with the given coordinates, color and owner. -/
def pixReq (x y : Int) (color owner : String) : PixelRequest :=
  { x := some x, y := some y, color := some color, owner := some owner,
    url := none }

/-- A store holding one generated image under the handle `img1`. -/
def imgStore : Store :=
  { canvas := [], adPlacements := [], generatedImages := [("img1", "png-bytes")],
    totalRevenue := 0, totalPixelsSold := 0 }

/-- A `POST /ad` body referencing `img1`. -/
def adReq (x y w h : Int) : AdRequest :=
  { x := some x, y := some y, width := some w, height := some h,
    imageId := some "img1", linkUrl := some "https://example.com",
    title := some "An ad", owner := some "agent" }

/-- Result of the accepted 10×10 placement at the origin on `imgStore`. -/
def adOut1 : Store × AdPlacement × Nat :=
  placeAdOk "ad1" imgStore 0 0 10 10 "img1" "https://example.com" "An ad"
    (some "agent")

/-- Result of an accepted paint of (5,5) on the empty store. -/
def pixOut1 : Store × PixelResp :=
  pixelOkResult Store.empty (pixReq 5 5 "#FF0000" "A") 5 5 "#FF0000"

/-- Result of an accepted paint with a lower-case color. -/
def pixOutLc : Store × PixelResp :=
  pixelOkResult Store.empty (pixReq 3 4 "#ff00aa" "B") 3 4 "#ff00aa"

/-! ### Claim C1 -/

/-- C1, counterexample: a `POST /ad` whose width is 105 — both `> 100` and
not a multiple of 10 — is rejected with the misalignment error (kind
`Misaligned`), not with `TooLarge` as the claim states: the handler checks
the multiple-of-10 rule before the maximum-size rule. -/
theorem c1_cex_width105_is_misaligned :
    placeAd "ad1" imgStore (adReq 0 0 105 10) = .error .misaligned ∧
    AdError.misaligned.kind ≠ ErrKind.TooLarge :=
  ⟨rfl, by decide⟩

/-- C1 (amended): `POST /ad` validation failures are detected in the order
given by the check table `adChecks` — non-numeric dimensions
(`InvalidInput`), then width or height < 10 (`TooSmall`), then width or
height not a multiple of 10 (`Misaligned`), then width or height > 100
(`TooLarge`), then rectangle out of the 1000×1000 grid (`OutOfBounds`),
then missing or unresolvable image handle (`UnknownImage`), then empty
linkUrl or title (`InvalidInput`): the handler returns an error exactly
when the table has a failing check, namely the first one. -/
theorem c1_ad_validation_order (adId : String) (s : Store) (r : AdRequest)
    (e : AdError) :
    placeAd adId s r = .error e ↔ adFirstFailure s r = some e :=
  placeAd_error_iff adId s r e

/-! ### Claim C2 -/

/-- C2: every accepted `POST /ad` returns a placement whose pixel count is
width×height and whose total cost is pixel count times the unit price, and
afterwards every coordinate of the rectangle holds a cell whose
back-reference is that placement's id. -/
theorem c2_ad_success_cost_and_backrefs (adId : String) (s : Store)
    (r : AdRequest) (s' : Store) (p : AdPlacement) (n : Nat)
    (h : placeAd adId s r = .ok (s', p, n)) :
    p.pixels = p.width * p.height ∧
    p.totalCost = (p.pixels : ℚ) * unitPrice ∧
    ∀ px py : Int, p.x ≤ px → px < p.x + p.width → p.y ≤ py →
      py < p.y + p.height →
      ∃ pd, Canvas.get s'.canvas (px, py) = some pd ∧ pd.adId = some p.id := by
  obtain ⟨x, y, w, hgt, hx, hy, hw, hh, h1, h2, h3, h4, h5, h6, h7, h8, hout⟩ :=
    placeAd_ok_inv h
  have hdims : (10 : Int) ≤ w ∧ (10 : Int) ≤ hgt := by
    simp only [dimsTooSmall, Bool.or_eq_false_iff, decide_eq_false_iff_not,
      not_lt] at h1
    exact h1
  have hs' : s' = (placeAdOk adId s x y w hgt (r.imageId.getD "")
      (r.linkUrl.getD "") (r.title.getD "") r.owner).1 := congrArg Prod.fst hout
  have hp : p = (placeAdOk adId s x y w hgt (r.imageId.getD "")
      (r.linkUrl.getD "") (r.title.getD "") r.owner).2.1 :=
    congrArg (fun z : Store × AdPlacement × Nat => z.2.1) hout
  rw [hp, placeAdOk_placement]
  refine ⟨rfl, rfl, ?_⟩
  intro px py hpx1 hpx2 hpy1 hpy2
  dsimp only at hpx1 hpx2 hpy1 hpy2 ⊢
  have hmem : (px, py) ∈ rectCoords x y w hgt :=
    (rectCoords_mem (by omega) (by omega)).mpr ⟨hpx1, hpx2, hpy1, hpy2⟩
  rw [hs', placeAdOk_fst_canvas]
  exact ⟨adPaintData adId r.owner,
    paintRect_fst_get_of_mem _ _ _ hmem, rfl⟩

set_option maxRecDepth 8000 in
/-- C2, witness: the 10×10 placement at the origin on `imgStore` is
accepted and the origin cell carries the placement's id. -/
theorem c2_witness :
    placeAd "ad1" imgStore (adReq 0 0 10 10) =
      .ok (adOut1.1, adOut1.2.1, adOut1.2.2) ∧
    ∃ pd, Canvas.get adOut1.1.canvas (0, 0) = some pd ∧
      pd.adId = some adOut1.2.1.id :=
  ⟨rfl,
   (c2_ad_success_cost_and_backrefs "ad1" imgStore (adReq 0 0 10 10)
      adOut1.1 adOut1.2.1 adOut1.2.2 rfl).2.2 0 0
      (by decide) (by decide) (by decide) (by decide)⟩

/-! ### Claim C3 -/

/-- C3: for every accepted write, the revenue counter increases by exactly
the number of previously-unpainted coordinates of the write times the unit
price (a repaint adds zero), and across every sequence of operations the
revenue and pixels-sold counters never decrease. -/
theorem c3_revenue_exact_and_monotone :
    (∀ (s : Store) (r : PixelRequest) (x y : Int) (s' : Store)
        (resp : PixelResp), r.x = some x → r.y = some y →
        paintPixel s r = .ok (s', resp) →
        s'.totalRevenue = s.totalRevenue +
          (if Canvas.hasKey s.canvas (x, y) then 0 else unitPrice) ∧
        s'.totalPixelsSold = s.totalPixelsSold +
          (if Canvas.hasKey s.canvas (x, y) then 0 else 1)) ∧
    (∀ (adId : String) (s : Store) (r : AdRequest) (s' : Store)
        (p : AdPlacement) (n : Nat), placeAd adId s r = .ok (s', p, n) →
        s'.totalRevenue = s.totalRevenue + (n : ℚ) * unitPrice ∧
        n = (rectCoords p.x p.y p.width p.height).countP
              (fun k => !(Canvas.hasKey s.canvas k))) ∧
    (∀ (s : Store) (ops : List Op),
        s.totalRevenue ≤ (Store.run s ops).totalRevenue ∧
        s.totalPixelsSold ≤ (Store.run s ops).totalPixelsSold) :=
  ⟨fun _ _ _ _ _ _ hx hy h => paintPixel_counters hx hy h,
   fun _ _ _ _ _ _ h => ⟨(placeAd_counters h).1, (placeAd_counters h).2.2⟩,
   fun s ops => run_counters_le s ops⟩

/-- C3, witness: painting the previously-unpainted (5,5) on the empty
store raises the revenue counter by exactly one unit price. -/
theorem c3_witness :
    (pixReq 5 5 "#FF0000" "A").x = some 5 ∧
    (pixReq 5 5 "#FF0000" "A").y = some 5 ∧
    paintPixel Store.empty (pixReq 5 5 "#FF0000" "A") =
      .ok (pixOut1.1, pixOut1.2) ∧
    pixOut1.1.totalRevenue = Store.empty.totalRevenue +
      (if Canvas.hasKey Store.empty.canvas (5, 5) then 0 else unitPrice) :=
  ⟨rfl, rfl, rfl,
   (c3_revenue_exact_and_monotone.1 Store.empty (pixReq 5 5 "#FF0000" "A")
      5 5 pixOut1.1 pixOut1.2 rfl rfl rfl).1⟩

/-! ### Claim C4 -/

/-- C4: an accepted paint makes the coordinate query report exactly the
painted color (uppercased) and owner; painting any other coordinate leaves
the query unchanged; and in the concrete two-paint example on (5,5) the
query reports the second paint and the cells-sold counter is 1, not 2. -/
theorem c4_last_write_wins :
    (∀ (s : Store) (r : PixelRequest) (x y : Int) (c : String) (s' : Store)
        (resp : PixelResp), r.x = some x → r.y = some y → r.color = some c →
        paintPixel s r = .ok (s', resp) →
        getPixelQuery s' (some x) (some y) =
          .taken { color := strUpper c, owner := ownerOrAnon r.owner,
                   adId := none, url := r.url }) ∧
    (∀ (s : Store) (r : PixelRequest) (x y qx qy : Int) (s' : Store)
        (resp : PixelResp), r.x = some x → r.y = some y → (qx, qy) ≠ (x, y) →
        paintPixel s r = .ok (s', resp) →
        getPixelQuery s' (some qx) (some qy) =
          getPixelQuery s (some qx) (some qy)) ∧
    (getPixelQuery (Store.run Store.empty
        [.pixel (pixReq 5 5 "#FF0000" "A"), .pixel (pixReq 5 5 "#00FF00" "B")])
        (some 5) (some 5) =
      .taken { color := "#00FF00", owner := "B", adId := none, url := none } ∧
     (Store.run Store.empty
        [.pixel (pixReq 5 5 "#FF0000" "A"),
         .pixel (pixReq 5 5 "#00FF00" "B")]).totalPixelsSold = 1) := by
  refine ⟨?_, ?_, rfl, rfl⟩
  · intro s r x y c s' resp hx hy hc h
    obtain ⟨x', y', c', hx', hy', hc', hg, -, hout⟩ := paintPixel_ok_inv h
    rw [hx] at hx'; rw [hy] at hy'; rw [hc] at hc'
    obtain rfl : x = x' := by injection hx'
    obtain rfl : y = y' := by injection hy'
    obtain rfl : c = c' := by injection hc'
    have hs' : s' = (pixelOkResult s r x y c).1 := congrArg Prod.fst hout
    rw [hs']
    simp only [getPixelQuery, hg, pixelOkResult_fst_canvas,
      Canvas.get_set_self, Bool.false_eq_true, if_false]
  · intro s r x y qx qy s' resp hx hy hne h
    obtain ⟨x', y', c', hx', hy', -, -, -, hout⟩ := paintPixel_ok_inv h
    rw [hx] at hx'; rw [hy] at hy'
    obtain rfl : x = x' := by injection hx'
    obtain rfl : y = y' := by injection hy'
    have hs' : s' = (pixelOkResult s r x y c').1 := congrArg Prod.fst hout
    rw [hs']
    by_cases hg : oobGuard qx qy
    · simp [getPixelQuery, hg]
    · simp only [getPixelQuery, hg, Bool.false_eq_true, if_false,
        pixelOkResult_fst_canvas]
      rw [Canvas.get_set_ne _ _ hne]

/-- C4, witness: immediately after the accepted paint of (5,5) with
`#FF0000` by `A`, the query of (5,5) reports that paint. -/
theorem c4_witness :
    (pixReq 5 5 "#FF0000" "A").x = some 5 ∧
    (pixReq 5 5 "#FF0000" "A").y = some 5 ∧
    (pixReq 5 5 "#FF0000" "A").color = some "#FF0000" ∧
    paintPixel Store.empty (pixReq 5 5 "#FF0000" "A") =
      .ok (pixOut1.1, pixOut1.2) ∧
    getPixelQuery pixOut1.1 (some 5) (some 5) =
      .taken { color := strUpper "#FF0000",
               owner := ownerOrAnon (pixReq 5 5 "#FF0000" "A").owner,
               adId := none, url := (pixReq 5 5 "#FF0000" "A").url } :=
  ⟨rfl, rfl, rfl, rfl,
   c4_last_write_wins.1 Store.empty (pixReq 5 5 "#FF0000" "A") 5 5 "#FF0000"
     pixOut1.1 pixOut1.2 rfl rfl rfl rfl⟩

/-! ### Claim C5 -/

/-- C5, counterexample: the paint request at (-1,0) with color `"zzz"` has
a color that does not match the 6-hex-digit pattern, yet it fails with the
out-of-bounds error, not the invalid-color error — refuting “fails with
InvalidColor exactly when the color string does not match”. -/
theorem c5_cex_oob_beats_color :
    paintPixel Store.empty (pixReq (-1) 0 "zzz" "A") = .error .outOfBounds ∧
    colorOk (pixReq (-1) 0 "zzz" "A").color = false ∧
    PixelError.outOfBounds ≠ PixelError.invalidColor :=
  ⟨rfl, rfl, by decide⟩

/-- C5 (amended): given numeric coordinates, `POST /pixel` fails with
`OutOfBounds` exactly when x or y is outside [0,1000); it fails with
`InvalidColor` exactly when the coordinates are in bounds and the color is
not a string matching the 6-hex-digit pattern (out-of-bounds coordinates
take precedence); and on any failure the store is left unchanged. -/
theorem c5_pixel_error_conditions (s : Store) (r : PixelRequest) (x y : Int)
    (hx : r.x = some x) (hy : r.y = some y) :
    (paintPixel s r = .error .outOfBounds ↔
      (x < 0 ∨ 1000 ≤ x ∨ y < 0 ∨ 1000 ≤ y)) ∧
    (paintPixel s r = .error .invalidColor ↔
      (¬(x < 0 ∨ 1000 ≤ x ∨ y < 0 ∨ 1000 ≤ y) ∧ colorOk r.color = false)) ∧
    (∀ e, paintPixel s r = .error e → Store.apply s (.pixel r) = s) := by
  have h := paintPixel_error_cases s r hx hy
  have hg : (oobGuard x y = true) ↔ (x < 0 ∨ 1000 ≤ x ∨ y < 0 ∨ 1000 ≤ y) := by
    simp only [oobGuard, Bool.or_eq_true, decide_eq_true_eq, or_assoc]
  have hg' : (oobGuard x y = false) ↔
      ¬(x < 0 ∨ 1000 ≤ x ∨ y < 0 ∨ 1000 ≤ y) := by
    rw [← hg]
    simp
  exact ⟨h.1.trans hg, h.2.trans (and_congr_left' hg'),
    fun _ he => apply_pixel_error he⟩

/-- C5, witness: at the numeric coordinates (-5,3) the out-of-bounds
characterization holds concretely. -/
theorem c5_witness :
    (pixReq (-5) 3 "#FF0000" "A").x = some (-5) ∧
    (pixReq (-5) 3 "#FF0000" "A").y = some 3 ∧
    (paintPixel Store.empty (pixReq (-5) 3 "#FF0000" "A") =
        .error .outOfBounds ↔
      ((-5 : Int) < 0 ∨ 1000 ≤ (-5 : Int) ∨ (3 : Int) < 0 ∨ 1000 ≤ (3 : Int))) :=
  ⟨rfl, rfl,
   (c5_pixel_error_conditions Store.empty (pixReq (-5) 3 "#FF0000" "A")
      (-5) 3 rfl rfl).1⟩

/-! ### Claim C6 -/

/-- C6: for every outcome of the random candidate sampling,
`findEmptySpace 10 10` on an empty occupancy snapshot finds a spot whose
coordinates are multiples of 10 and whose 10×10 rectangle fits in the
grid; and in general whenever `findEmptySpace` reports a spot, the
returned rectangle lies inside the grid and all of its coordinates are
unoccupied in the snapshot. -/
theorem c6_findEmptySpace_sound :
    (∀ raw : List Coord, raw ≠ [] →
      (∀ c ∈ raw, 0 ≤ c.1 ∧ c.1 < 990 ∧ 0 ≤ c.2 ∧ c.2 < 990) →
      ∃ q : Coord, findEmptySpace [] 10 10 raw = some q ∧
        10 ∣ q.1 ∧ 10 ∣ q.2 ∧ 0 ≤ q.1 ∧ 0 ≤ q.2 ∧
        q.1 + 10 ≤ 1000 ∧ q.2 + 10 ≤ 1000) ∧
    (∀ (occ : List Coord) (w h : Int) (raw : List Coord) (qx qy : Int),
      findEmptySpace occ w h raw = some (qx, qy) →
      0 ≤ qx ∧ 0 ≤ qy ∧ qx + w ≤ 1000 ∧ qy + h ≤ 1000 ∧
      ∀ a b : Int, qx ≤ a → a < qx + w → qy ≤ b → b < qy + h →
        (a, b) ∉ occ) := by
  constructor
  · rintro (_ | ⟨c0, rest⟩) hne hbound
    · exact absurd rfl hne
    obtain ⟨h1, h2, h3, h4⟩ := hbound c0 (List.mem_cons_self c0 rest)
    have e1 := snap10_eq_ediv c0.1
    have e2 := snap10_eq_ediv c0.2
    refine ⟨(snap10 c0.1, snap10 c0.2), ?_, ⟨c0.1 / 10, by rw [e1]; ring⟩,
      ⟨c0.2 / 10, by rw [e2]; ring⟩, by omega, by omega, by omega, by omega⟩
    have hok : candOk [] 10 10 (snap10 c0.1, snap10 c0.2) = true := by
      simp only [candOk, rectVacant_nil, Bool.and_true, Bool.or_eq_false_iff,
        Bool.and_eq_true, Bool.not_eq_true', decide_eq_false_iff_not, not_lt]
      omega
    simp only [findEmptySpace, List.map_cons]
    exact List.find?_cons_of_pos _ hok
  · intro occ w h raw qx qy hfind
    have hp : candOk occ w h (qx, qy) = true := List.find?_some hfind
    simp only [candOk, Bool.and_eq_true, Bool.or_eq_false_iff,
      Bool.not_eq_true', decide_eq_false_iff_not, not_lt] at hp
    obtain ⟨⟨⟨hx0, hy0⟩, hxw, hyh⟩, hvac⟩ := hp
    refine ⟨hx0, hy0, hxw, hyh, ?_⟩
    intro a b ha1 ha2 hb1 hb2 hmem
    have hall := hvac
    simp only [rectVacant, List.all_eq_true] at hall
    have hab : (a, b) ∈ rectCoords qx qy w h :=
      (rectCoords_mem (by omega) (by omega)).mpr ⟨ha1, ha2, hb1, hb2⟩
    have := hall (a, b) hab
    simp at this
    exact this hmem

/-- C6, witness: from the single raw candidate (5,7) on the empty
snapshot, a 10-aligned in-grid spot is found. -/
theorem c6_witness :
    ([((5 : Int), (7 : Int))] ≠ ([] : List Coord)) ∧
    (∀ c ∈ [((5 : Int), (7 : Int))], 0 ≤ c.1 ∧ c.1 < 990 ∧ 0 ≤ c.2 ∧ c.2 < 990) ∧
    (∃ q : Coord, findEmptySpace [] 10 10 [(5, 7)] = some q ∧
      10 ∣ q.1 ∧ 10 ∣ q.2 ∧ 0 ≤ q.1 ∧ 0 ≤ q.2 ∧
      q.1 + 10 ≤ 1000 ∧ q.2 + 10 ≤ 1000) :=
  ⟨by simp, by decide,
   c6_findEmptySpace_sound.1 [(5, 7)] (by simp) (by decide)⟩

/-! ### Claim C7 -/

/-- C7: `POST /ad` is atomic — a rejected placement leaves the whole store
exactly as it was; an accepted placement appends exactly one record to the
ledger; and across any sequence of operations the ledger only ever grows
at the end, so existing records are never modified or deleted. -/
theorem c7_ad_atomic_append_only :
    (∀ (adId : String) (s : Store) (r : AdRequest) (e : AdError),
        placeAd adId s r = .error e → Store.apply s (.ad adId r) = s) ∧
    (∀ (adId : String) (s : Store) (r : AdRequest) (s' : Store)
        (p : AdPlacement) (n : Nat), placeAd adId s r = .ok (s', p, n) →
        s'.adPlacements = s.adPlacements ++ [p]) ∧
    (∀ (s : Store) (ops : List Op),
        ∃ d, (Store.run s ops).adPlacements = s.adPlacements ++ d) := by
  refine ⟨fun _ _ _ _ h => apply_ad_error h, ?_,
    fun s ops => run_adPlacements_ext ops s⟩
  intro adId s r s' p n h
  obtain ⟨x, y, w, hgt, -, -, -, -, -, -, -, -, -, -, -, -, hout⟩ :=
    placeAd_ok_inv h
  have hs' : s' = (placeAdOk adId s x y w hgt (r.imageId.getD "")
      (r.linkUrl.getD "") (r.title.getD "") r.owner).1 := congrArg Prod.fst hout
  have hp : p = (placeAdOk adId s x y w hgt (r.imageId.getD "")
      (r.linkUrl.getD "") (r.title.getD "") r.owner).2.1 :=
    congrArg (fun z : Store × AdPlacement × Nat => z.2.1) hout
  rw [hs', hp, placeAdOk_fst_adPlacements]

/-- C7, witness: the rejected 105-wide placement leaves `imgStore`
untouched. -/
theorem c7_witness :
    placeAd "ad1" imgStore (adReq 0 0 105 10) = .error .misaligned ∧
    Store.apply imgStore (.ad "ad1" (adReq 0 0 105 10)) = imgStore :=
  ⟨rfl,
   c7_ad_atomic_append_only.1 "ad1" imgStore (adReq 0 0 105 10)
     .misaligned rfl⟩

/-! ### Claim C8 -/

set_option maxRecDepth 16000 in
/-- C8, counterexample: nothing consumes an image handle — starting from
`imgStore` (empty ledger, one stored image `img1`), two successive `POST
/ad` requests that both reference `img1` are both accepted, so after the
run the ledger holds two placements whose image handle is `img1`. -/
theorem c8_cex_handle_used_twice :
    imgStore.adPlacements = [] ∧
    (placeAd "a2" (Store.apply imgStore (.ad "a1" (adReq 0 0 10 10)))
        (adReq 100 100 10 10)).isOk = true ∧
    ((Store.run imgStore
        [.ad "a1" (adReq 0 0 10 10), .ad "a2" (adReq 100 100 10 10)]
      ).adPlacements.map AdPlacement.imageId) = ["img1", "img1"] :=
  ⟨rfl, rfl, rfl⟩

/-- C8 (amended): an accepted placement's image handle resolves in the
image store at acceptance time, and the placement leaves the
handle-to-image mapping untouched, so fetch-by-id still resolves the
handle afterwards; the code does not consume handles, and nothing stops a
later accepted placement from referencing the same handle. -/
theorem c8_image_mapping_persists (adId : String) (s : Store) (r : AdRequest)
    (s' : Store) (p : AdPlacement) (n : Nat)
    (h : placeAd adId s r = .ok (s', p, n)) :
    imagesHas s.generatedImages p.imageId = true ∧
    s'.generatedImages = s.generatedImages ∧
    getImage s' p.imageId = getImage s p.imageId ∧
    (getImage s' p.imageId).isSome = true := by
  obtain ⟨x, y, w, hgt, -, -, -, -, -, -, -, -, -, h6, -, -, hout⟩ :=
    placeAd_ok_inv h
  have hs' : s' = (placeAdOk adId s x y w hgt (r.imageId.getD "")
      (r.linkUrl.getD "") (r.title.getD "") r.owner).1 := congrArg Prod.fst hout
  have hp : p = (placeAdOk adId s x y w hgt (r.imageId.getD "")
      (r.linkUrl.getD "") (r.title.getD "") r.owner).2.1 :=
    congrArg (fun z : Store × AdPlacement × Nat => z.2.1) hout
  have himg : p.imageId = r.imageId.getD "" := by rw [hp, placeAdOk_placement]
  have hgen : s'.generatedImages = s.generatedImages := by
    rw [hs', placeAdOk_fst_generatedImages]
  have hhas : imagesHas s.generatedImages p.imageId = true := by
    rw [himg]; exact h6
  refine ⟨hhas, hgen, getImage_congr _ hgen, ?_⟩
  rw [getImage_congr _ hgen]
  exact getImage_isSome_of_has hhas

set_option maxRecDepth 8000 in
/-- C8, witness: after the accepted placement on `imgStore`, the handle
`img1` still resolves via fetch-by-id. -/
theorem c8_witness :
    placeAd "ad1" imgStore (adReq 0 0 10 10) =
      .ok (adOut1.1, adOut1.2.1, adOut1.2.2) ∧
    (getImage adOut1.1 adOut1.2.1.imageId).isSome = true :=
  ⟨rfl,
   (c8_image_mapping_persists "ad1" imgStore (adReq 0 0 10 10)
      adOut1.1 adOut1.2.1 adOut1.2.2 rfl).2.2.2⟩

/-! ### Claim C9 -/

/-- C9: after any sequence of operations from the empty store, the
pixels-sold counter equals the number of distinct painted coordinates
(the size of the canvas map) and the revenue counter equals the
pixels-sold counter times the unit price. -/
theorem c9_counters_match_canvas (ops : List Op) :
    (Store.run Store.empty ops).totalPixelsSold =
      (Store.run Store.empty ops).canvas.length ∧
    (Store.run Store.empty ops).totalRevenue =
      ((Store.run Store.empty ops).totalPixelsSold : ℚ) * unitPrice :=
  storeInv_run storeInv_empty ops

/-! ### Claim C10 -/

/-- C10: an accepted paint stores and returns the submitted color
normalized to upper case. -/
theorem c10_color_normalized (s : Store) (r : PixelRequest) (x y : Int)
    (c : String) (s' : Store) (resp : PixelResp)
    (hx : r.x = some x) (hy : r.y = some y) (hc : r.color = some c)
    (h : paintPixel s r = .ok (s', resp)) :
    resp.color = strUpper c ∧
    ∃ pd, Canvas.get s'.canvas (x, y) = some pd ∧ pd.color = strUpper c := by
  obtain ⟨x', y', c', hx', hy', hc', -, -, hout⟩ := paintPixel_ok_inv h
  rw [hx] at hx'; rw [hy] at hy'; rw [hc] at hc'
  obtain rfl : x = x' := by injection hx'
  obtain rfl : y = y' := by injection hy'
  obtain rfl : c = c' := by injection hc'
  have hs' : s' = (pixelOkResult s r x y c).1 := congrArg Prod.fst hout
  have hresp : resp = (pixelOkResult s r x y c).2 := congrArg Prod.snd hout
  refine ⟨by rw [hresp, pixelOkResult_snd], ?_⟩
  rw [hs', pixelOkResult_fst_canvas]
  exact ⟨_, Canvas.get_set_self _ _ _, rfl⟩

/-- C10, witness: painting with the lower-case `"#ff00aa"` is accepted and
the response color is the upper-cased `"#FF00AA"`. -/
theorem c10_witness :
    paintPixel Store.empty (pixReq 3 4 "#ff00aa" "B") =
      .ok (pixOutLc.1, pixOutLc.2) ∧
    strUpper "#ff00aa" = "#FF00AA" ∧
    pixOutLc.2.color = strUpper "#ff00aa" :=
  ⟨rfl, rfl,
   (c10_color_normalized Store.empty (pixReq 3 4 "#ff00aa" "B") 3 4 "#ff00aa"
      pixOutLc.1 pixOutLc.2 rfl rfl rfl rfl).1⟩
